import Mathlib

/-!
Shallow embedding of the environment-adapter core of the mushroom-rl
repository: the `MaxAndSkip` frame-skip-and-pool wrapper and the `Atari`
adapter from `x_mushroom_rl/environments/atari.py`, and the `Gym` adapter
from `x_mushroom_rl/environments/gym_env.py`.

Frames (numpy arrays) are modelled as lists of rationals, rewards as
rationals, the `info` mapping as its single field read by the adapter
(`info['ale.lives']`), and the underlying simulator as an abstract state
type `σ` together with step/reset functions passed in as parameters.
-/

namespace MushroomRL

/-- A raw screen frame (a numpy array, flattened to a list of values). -/
abbrev Frame := List ℚ

/-- A simulator action (an index into the game's action set; 0 is NOOP,
1 is FIRE when available). -/
abbrev Action := Nat

/-- Result of one raw simulator step: the tuple
`(obs, reward, absorbing, info)` with the info mapping reduced to the one
field the adapter reads, `info['ale.lives']`. -/
structure StepRes where
  obs : Frame
  reward : ℚ
  absorbing : Bool
  lives : Nat
deriving DecidableEq

/-- Element-wise pooling of the two buffered frames:
`_obs_buffer.max(axis=0)` when `max_pooling` is set, otherwise
`_obs_buffer.mean(axis=0)`. -/
def poolFrames (max_pooling : Bool) (b0 b1 : Frame) : Frame :=
  if max_pooling then List.zipWith max b0 b1
  else List.zipWith (fun x y => (x + y) / 2) b0 b1

/-- State of the `MaxAndSkip` wrapper: the wrapped environment, the
two-slot observation buffer `_obs_buffer` (initialised to zeros), the skip
count `_skip` and the pooling mode `_max_pooling`. -/
structure MaxAndSkip (σ : Type) where
  env : σ
  obs_buffer0 : Frame
  obs_buffer1 : Frame
  skip : Nat
  max_pooling : Bool

/-- `MaxAndSkip.__init__`: zero-filled two-slot buffer of the observation
shape (flattened size `shapeSize`), given skip count and pooling mode. -/
def MaxAndSkip.init {σ : Type} (env : σ) (shapeSize skip : Nat)
    (max_pooling : Bool) : MaxAndSkip σ :=
  ⟨env, List.replicate shapeSize 0, List.replicate shapeSize 0, skip, max_pooling⟩

/-- The `for i in range(skip)` loop of `MaxAndSkip.step`.  `i` is the
current loop index, `fuel` the number of iterations left (`skip - i`),
`tot` the reward accumulated so far and `last` the result of the previous
sub-step (`none` before the first iteration: if the loop body never runs,
the variables `obs`, `absorbing`, `info` are unbound in the Python source
and the call raises, which `none` models).  Buffer slot 0 is written when
`i == skip - 2` and slot 1 when `i == skip - 1` (integer comparisons, as
in Python, so they never fire for `skip < 2`); the loop breaks as soon as
a sub-step reports absorbing. -/
def skipLoop {σ : Type} (stepF : σ → Action → StepRes × σ) (a : Action)
    (skip : Nat) :
    Nat → Nat → σ → Frame → Frame → ℚ → Option StepRes →
    Option (σ × Frame × Frame × ℚ × StepRes)
  | _, 0, e, b0, b1, tot, last => last.map (fun r => (e, b0, b1, tot, r))
  | i, fuel + 1, e, b0, b1, tot, _ =>
    let r := (stepF e a).1
    let e' := (stepF e a).2
    let b0' := if (i : Int) = (skip : Int) - 2 then r.obs else b0
    let b1' := if (i : Int) = (skip : Int) - 1 then r.obs else b1
    let tot' := tot + r.reward
    if r.absorbing then some (e', b0', b1', tot', r)
    else skipLoop stepF a skip (i + 1) fuel e' b0' b1' tot' (some r)

/-- `MaxAndSkip.step`: run the skip loop from index 0 with an empty
reward accumulator, then pool the two buffer slots into the returned
frame.  Returns `(frame, total_reward, absorbing, info)` together with the
updated wrapper state. -/
def MaxAndSkip.step {σ : Type} (stepF : σ → Action → StepRes × σ)
    (self : MaxAndSkip σ) (a : Action) :
    Option (Frame × ℚ × Bool × Nat × MaxAndSkip σ) :=
  (skipLoop stepF a self.skip 0 self.skip self.env self.obs_buffer0
      self.obs_buffer1 0 none).map
    (fun o => (poolFrames self.max_pooling o.2.1 o.2.2.1, o.2.2.2.1,
               o.2.2.2.2.absorbing, o.2.2.2.2.lives,
               { self with env := o.1, obs_buffer0 := o.2.1,
                           obs_buffer1 := o.2.2.1 }))

/-- The simulator state reached after `n` consecutive raw steps under the
fixed action `a`. -/
def rawIter {σ : Type} (stepF : σ → Action → StepRes × σ) (a : Action)
    (e : σ) : Nat → σ
  | 0 => e
  | n + 1 => (stepF (rawIter stepF a e n) a).2

/-- The result of the `n`-th (0-indexed) consecutive raw step under the
fixed action `a`. -/
def rawRes {σ : Type} (stepF : σ → Action → StepRes × σ) (a : Action)
    (e : σ) (n : Nat) : StepRes :=
  (stepF (rawIter stepF a e n) a).1

/-- Sum of the rewards of the first `n` consecutive raw steps under the
fixed action `a`. -/
def sumRew {σ : Type} (stepF : σ → Action → StepRes × σ) (a : Action)
    (e : σ) (n : Nat) : ℚ :=
  ((List.range n).map (fun m => (rawRes stepF a e m).reward)).sum

/-- Concrete inner environment for exercising the wrapper: state counts
raw steps, raw rewards follow `[1, 0, 0, 2]`, frame of step `n` is
`[n + 10]`, never absorbing. -/
def stepFC1 : Nat → Action → StepRes × Nat :=
  fun n _ => (⟨[(n : ℚ) + 10], [(1 : ℚ), 0, 0, 2].getD n 0, false, 3⟩, n + 1)

/-- Wrapper instance with skip 4 and max-pooling over `stepFC1`. -/
def msC1 : MaxAndSkip Nat := ⟨0, [0], [0], 4, true⟩

/-- Concrete inner environment that absorbs on its first sub-step. -/
def stepFC10 : Nat → Action → StepRes × Nat :=
  fun n _ => (⟨[(n : ℚ)], 7, true, 2⟩, n + 1)

/-- Wrapper instance with skip 5 and a non-trivial pre-call buffer. -/
def msC10 : MaxAndSkip Nat := ⟨0, [9], [8], 5, true⟩

/-- Construction-time configuration of the `Atari` adapter: the
`ends_at_life` flag, `history_length`, `max_no_op_actions`, the lives
count reported by the fresh simulator (`_max_lives`), whether the game's
action 1 is `FIRE` (`get_action_meanings()[1] == 'FIRE'`, a fixed
property of the game), the frame-preprocessing function
(`preprocess_frame` with the instance's `_img_size` and
`grey_and_rescale` flags baked in; its internals — optional resize and
greyscale — are irrelevant to the adapter logic and left abstract), and
the three simulator entry points the adapter calls: `self.env.step`
(through the possibly frame-skipping wrapper), `self.env.env.step` (the
raw simulator, bypassing the wrapper) and `self.env.reset`. -/
structure AtariCfg (σ : Type) where
  episode_ends_at_life : Bool
  history_length : Nat
  max_no_op_actions : Nat
  max_lives : Nat
  fire_available : Bool
  preprocess_frame : Frame → Frame
  stepW : σ → Action → StepRes × σ
  stepRaw : σ → Action → StepRes × σ
  resetW : σ → Frame × σ

/-- Mutable state of the `Atari` adapter: the simulator state, the
tracked lives count `_lives`, the `_force_fire` and `_real_reset` flags,
the no-op countdown `_current_no_op` and the frame history deque
`_state`. -/
structure Atari (σ : Type) where
  env : σ
  lives : Nat
  force_fire : Bool
  real_reset : Bool
  current_no_op : Nat
  state : List Frame

/-- Adapter state as `Atari.__init__` leaves it: `_lives = _max_lives`,
`_force_fire = None` (falsy), `_real_reset = True`, no frame history yet. -/
def Atari.initState {σ : Type} (cfg : AtariCfg σ) (e : σ) : Atari σ :=
  ⟨e, cfg.max_lives, false, true, 0, []⟩

/-- `np.random.randint(bound)`: a draw from the generator value `g`,
uniform over `[0, bound)` as `g` ranges over residues. -/
def npRandint (g bound : Nat) : Nat := g % bound

/-- Appending to a `deque` with `maxlen`: the new element goes to the
right, and elements are dropped from the left while the length exceeds
the bound. -/
def dequeAppend {α : Type} (maxlen : Nat) (q : List α) (x : α) : List α :=
  let q' := q ++ [x]
  if maxlen < q'.length then q'.drop (q'.length - maxlen) else q'

/-- `Atari.reset`: on a real reset, reset the simulator, preprocess the
returned frame, fill the history deque with `history_length` copies of it
and restore the lives counter; otherwise keep the simulator, deque and
lives untouched (the soft-reset path).  Either way re-arm `_force_fire`
(when the game's action 1 is FIRE) and draw a fresh no-op count in
`[0, max_no_op_actions]` from the generator value `g`. -/
def Atari.reset {σ : Type} (cfg : AtariCfg σ) (self : Atari σ) (g : Nat) :
    List Frame × Atari σ :=
  let st1 := if self.real_reset then
      { self with env := (cfg.resetW self.env).2,
                  state := List.replicate cfg.history_length
                    (cfg.preprocess_frame (cfg.resetW self.env).1),
                  lives := cfg.max_lives }
    else self
  let st2 := { st1 with force_fire := cfg.fire_available,
                        current_no_op := npRandint g (cfg.max_no_op_actions + 1) }
  (st2.state, st2)

/-- The one-off FIRE priming step at the top of `Atari.step`: when
`_force_fire` is armed, issue action 1 directly against the raw simulator
and disarm the flag.  Returns the simulator state, the new flag value and
the list of raw actions issued (instrumentation). -/
def firePrime {σ : Type} (cfg : AtariCfg σ) (self : Atari σ) :
    σ × Bool × List Action :=
  if self.force_fire then ((cfg.stepRaw self.env 1).2, false, [1])
  else (self.env, self.force_fire, [])

/-- The `while self._current_no_op > 0` loop of `Atari.step`: issue
action 0 directly against the raw simulator `n` times, discarding the
results.  Returns the simulator state and the list of raw actions issued
(instrumentation). -/
def noopLoop {σ : Type} (stepRaw : σ → Action → StepRes × σ) :
    Nat → σ → σ × List Action
  | 0, e => (e, [])
  | n + 1, e =>
    let rest := noopLoop stepRaw n (stepRaw e 0).2
    (rest.1, 0 :: rest.2)

/-- The simulator state on which `Atari.step` runs the caller's action:
the state after the FIRE priming step (if armed) and the no-op priming
steps. -/
def primedEnv {σ : Type} (cfg : AtariCfg σ) (self : Atari σ) : σ :=
  (noopLoop cfg.stepRaw self.current_no_op (firePrime cfg self).1).1

/-- What a wrapped `Atari.step` call returns, plus instrumentation: the
preprocessed frame appended to the deque on this call and the raw
priming actions issued before the caller's action. -/
structure AtariStepOut where
  state : List Frame
  reward : ℚ
  absorbing : Bool
  lives : Nat
  new_frame : Frame
  fire_priming : List Action
  noop_priming : List Action

/-- `Atari.step`: FIRE priming, no-op priming (both against the raw
simulator, outputs discarded), then the caller's action through the
wrapped environment.  `_real_reset` records the simulator's own
absorbing flag; if the reported lives count differs from the tracked
one, the returned absorbing flag is forced true when the episode ends at
life loss, the tracked count is updated and `_force_fire` re-armed.  The
preprocessed frame is appended to the history deque (oldest evicted). -/
def Atari.step {σ : Type} (cfg : AtariCfg σ) (self : Atari σ) (a : Action) :
    AtariStepOut × Atari σ :=
  let fp := firePrime cfg self
  let np := noopLoop cfg.stepRaw self.current_no_op fp.1
  let r := (cfg.stepW np.1 a).1
  let e3 := (cfg.stepW np.1 a).2
  let absorbing2 := if r.lives = self.lives then r.absorbing
    else if cfg.episode_ends_at_life then true else r.absorbing
  let lives2 := if r.lives = self.lives then self.lives else r.lives
  let ff2 := if r.lives = self.lives then fp.2.1 else cfg.fire_available
  let newFrame := cfg.preprocess_frame r.obs
  let state2 := dequeAppend cfg.history_length self.state newFrame
  (⟨state2, r.reward, absorbing2, r.lives, newFrame, fp.2.2, np.2⟩,
   ⟨e3, lives2, ff2, r.absorbing, 0, state2⟩)

/-- Run a sequence of `Atari.step` calls, collecting the preprocessed
frames appended to the deque, in arrival order. -/
def Atari.run {σ : Type} (cfg : AtariCfg σ) :
    Atari σ → List Action → Atari σ × List Frame
  | st, [] => (st, [])
  | st, a :: as =>
    let s := Atari.step cfg st a
    let rest := Atari.run cfg s.2 as
    (rest.1, s.1.new_frame :: rest.2)

/-- Concrete wrapped-step function: reports lives 2, reward 1, not
absorbing; the observation tracks the simulator counter. -/
def stepWC : Nat → Action → StepRes × Nat :=
  fun e _ => (⟨[(e : ℚ)], 1, false, 2⟩, e + 1)

/-- Concrete raw-step function used for priming. -/
def stepRawC : Nat → Action → StepRes × Nat :=
  fun e _ => (⟨[0], 0, false, 3⟩, e + 1)

/-- Concrete wrapped reset. -/
def resetWC : Nat → Frame × Nat := fun e => ([50], e + 1)

/-- Adapter configuration with `ends_at_life = True` and three lives. -/
def cfgT : AtariCfg Nat := ⟨true, 4, 30, 3, true, id, stepWC, stepRawC, resetWC⟩

/-- Adapter configuration with `ends_at_life = False`. -/
def cfgF : AtariCfg Nat := ⟨false, 4, 30, 3, true, id, stepWC, stepRawC, resetWC⟩

/-- Adapter configuration with `history_length = 2`. -/
def cfgH2 : AtariCfg Nat := ⟨false, 2, 30, 3, false, id, stepWC, stepRawC, resetWC⟩

/-- Adapter state awaiting a real reset, tracking 3 lives, with 2 pending
no-ops. -/
def stT : Atari Nat := ⟨0, 3, false, true, 2, [[1], [2]]⟩

/-- Adapter state after a life loss with episodes not ending at life
loss: the soft-reset configuration. -/
def stSoft : Atari Nat := ⟨0, 3, false, false, 2, [[1], [2]]⟩

/-- External Gym space kinds, as the adapter can receive them from
`gym.make`: `Discrete`, `Box` and the composite kinds the adapter
rejects (`MultiDiscrete`, `Tuple`, `Dict`). -/
inductive GymSpace where
  | discrete (n : Nat)
  | box (low high : List ℚ) (shape : List Nat)
  | multiDiscrete (nvec : List Nat)
  | tuple (spaces : List Nat)
  | dict (spaces : List Nat)
deriving DecidableEq

/-- Modelled from the spec: the repository's own space descriptors from
`x_mushroom_rl.utils.spaces` (the module is not part of the excerpt).
Per spec §3, a Space is the variant `Discrete{n}` or
`Box{low, high, shape}`, immutable, storing the given bounds and shape. -/
inductive MSpace where
  | discrete (n : Nat)
  | box (low high : List ℚ) (shape : List Nat)
deriving DecidableEq

/-- The two error kinds `Gym.__init__` can raise for unsupported spaces:
the `assert not isinstance(..., MultiDiscrete)` assertion and the
`raise ValueError` of `_convert_gym_space`. -/
inductive GymError where
  | assertionError
  | valueError
deriving DecidableEq

/-- `Gym._convert_gym_space`: `Discrete` and `Box` map 1:1 (preserving
`n`, respectively `low`/`high`/`shape`); every other kind raises
`ValueError`. -/
def Gym.convertGymSpace : GymSpace → Except GymError MSpace
  | .discrete n => .ok (.discrete n)
  | .box low high shape => .ok (.box low high shape)
  | _ => .error .valueError

/-- `isinstance(space, gym_spaces.MultiDiscrete)`. -/
def GymSpace.isMultiDiscrete : GymSpace → Bool
  | .multiDiscrete _ => true
  | _ => false

/-- The space handling of `Gym.__init__`: assert that neither space is
`MultiDiscrete`, then convert the action space and the observation
space; any failure is raised synchronously at construction. -/
def Gym.initSpaces (obsSpace actSpace : GymSpace) :
    Except GymError (MSpace × MSpace) :=
  if obsSpace.isMultiDiscrete || actSpace.isMultiDiscrete then
    .error .assertionError
  else do
    let act ← Gym.convertGymSpace actSpace
    let obs ← Gym.convertGymSpace obsSpace
    pure (obs, act)

/-- A numpy value as `Gym.reset` handles it: either a scalar or an
array; `np.atleast_1d` wraps a scalar into a one-element vector and
leaves arrays unchanged. -/
inductive NpVal where
  | scalar (x : ℚ)
  | arr (xs : List ℚ)
deriving DecidableEq

/-- `np.atleast_1d`. -/
def atleast_1d : NpVal → List ℚ
  | .scalar x => [x]
  | .arr xs => xs

/-- The underlying Gym simulator as `Gym.reset` sees it: an opaque inner
part plus the `state` attribute the adapter force-overwrites. -/
structure GymEnvState (ι : Type) where
  inner : ι
  state : NpVal

/-- `Gym.reset`: with no requested state, delegate to the simulator's
reset and return its observation coerced to at least 1-D; with a
requested state, reset the simulator, overwrite `env.state` with the
given value and return that value coerced to at least 1-D. -/
def Gym.reset {ι : Type}
    (simReset : GymEnvState ι → NpVal × GymEnvState ι)
    (e : GymEnvState ι) (state : Option NpVal) :
    List ℚ × GymEnvState ι :=
  match state with
  | none => (atleast_1d (simReset e).1, (simReset e).2)
  | some s => (atleast_1d s, { (simReset e).2 with state := s })

/-- Boolean prefix test on character lists. -/
def listStartsWith : List Char → List Char → Bool
  | [], _ => true
  | _ :: _, [] => false
  | c :: cs, d :: ds => c = d && listStartsWith cs ds

/-- Boolean substring test on character lists. -/
def listContainsSub (pat : List Char) : List Char → Bool
  | [] => listStartsWith pat []
  | d :: ds => listStartsWith pat (d :: ds) || listContainsSub pat ds

/-- Python's `pat in s` substring containment on strings. -/
def strContains (s pat : String) : Bool :=
  listContainsSub pat.toList s.toList

/-- The three mutually exclusive simulator configurations
`Atari.__init__` can build: the frame-skip-and-pool wrapper for
`NoFrameskip` games, the annotation wrapper for `-Augmented` games with
the optional dependency installed, or the bare simulator. -/
inductive AtariEnvSel (σ : Type) where
  | maxAndSkip (ms : MaxAndSkip σ)
  | ariWrapped (e : σ)
  | plain (e : σ)

/-- The environment-selection logic of `Atari.__init__`: a name
containing `NoFrameskip` gets `MaxAndSkip(gym.make(name),
history_length, max_pooling)`; otherwise a name containing `-Augmented`
(with the annotation dependency installed) is stripped of the suffix and
wrapped when its lowercased 4-character prefix matches a supported game;
otherwise the simulator is used as-is. -/
def Atari.selectEnv {σ : Type} (name : String) (ariInstalled : Bool)
    (ariKeys : List String) (mkRaw : String → σ)
    (shapeSize history_length : Nat) (max_pooling : Bool) : AtariEnvSel σ :=
  if strContains name "NoFrameskip" then
    .maxAndSkip (MaxAndSkip.init (mkRaw name) shapeSize history_length
      max_pooling)
  else if strContains name "-Augmented" && ariInstalled then
    let name2 := name.replace "-Augmented" ""
    if (ariKeys.map (fun k => k.toLower.take 4)).contains
        (name2.toLower.take 4) then
      .ariWrapped (mkRaw name2)
    else .plain (mkRaw name2)
  else .plain (mkRaw name)

theorem rawIter_shift {σ : Type} (stepF : σ → Action → StepRes × σ)
    (a : Action) (e : σ) (n : Nat) :
    rawIter stepF a (stepF e a).2 n = rawIter stepF a e (n + 1) := by
  induction n with
  | zero => rfl
  | succ n ih => simp only [rawIter, ih]

theorem rawRes_shift {σ : Type} (stepF : σ → Action → StepRes × σ)
    (a : Action) (e : σ) (n : Nat) :
    rawRes stepF a (stepF e a).2 n = rawRes stepF a e (n + 1) := by
  simp only [rawRes, rawIter_shift]

theorem sumRew_shift {σ : Type} (stepF : σ → Action → StepRes × σ)
    (a : Action) (e : σ) (n : Nat) :
    sumRew stepF a e (n + 1) =
      (rawRes stepF a e 0).reward + sumRew stepF a (stepF e a).2 n := by
  simp only [sumRew, List.range_succ_eq_map, List.map_cons, List.sum_cons,
    List.map_map]
  congr 1
  refine congrArg List.sum (List.map_congr_left fun m _ => ?_)
  simp [Function.comp, rawRes_shift]

theorem sumRew_one {σ : Type} (stepF : σ → Action → StepRes × σ) (a : Action)
    (e : σ) : sumRew stepF a e 1 = (rawRes stepF a e 0).reward := by
  simp [sumRew, List.range_succ]

theorem skipLoop_zero {σ : Type} (stepF : σ → Action → StepRes × σ)
    (a : Action) (skip i : Nat) (e : σ) (b0 b1 : Frame) (tot : ℚ)
    (last : Option StepRes) :
    skipLoop stepF a skip i 0 e b0 b1 tot last =
      last.map (fun r => (e, b0, b1, tot, r)) := rfl

theorem skipLoop_succ {σ : Type} (stepF : σ → Action → StepRes × σ)
    (a : Action) (skip i fuel : Nat) (e : σ) (b0 b1 : Frame) (tot : ℚ)
    (last : Option StepRes) :
    skipLoop stepF a skip i (fuel + 1) e b0 b1 tot last =
      if (stepF e a).1.absorbing then
        some ((stepF e a).2,
              (if (i : Int) = (skip : Int) - 2 then (stepF e a).1.obs else b0),
              (if (i : Int) = (skip : Int) - 1 then (stepF e a).1.obs else b1),
              tot + (stepF e a).1.reward, (stepF e a).1)
      else
        skipLoop stepF a skip (i + 1) fuel (stepF e a).2
          (if (i : Int) = (skip : Int) - 2 then (stepF e a).1.obs else b0)
          (if (i : Int) = (skip : Int) - 1 then (stepF e a).1.obs else b1)
          (tot + (stepF e a).1.reward) (some (stepF e a).1) := rfl

/-- If no sub-step among the first `fuel - 1` reports absorbing, the skip
loop runs all `fuel` remaining iterations: it ends on the simulator state
after `fuel` raw steps, slot 0 holds the frame of raw step `fuel - 2`
(when `2 ≤ fuel`), slot 1 the frame of raw step `fuel - 1`, the
accumulator has gained the sum of all `fuel` raw rewards, and the last
sub-step result is that of raw step `fuel - 1`. -/
theorem skipLoop_no_absorb {σ : Type} (stepF : σ → Action → StepRes × σ)
    (a : Action) (skip : Nat) :
    ∀ fuel i e b0 b1 tot last, 1 ≤ fuel → i + fuel = skip →
    (∀ m, m + 1 < fuel → (rawRes stepF a e m).absorbing = false) →
    skipLoop stepF a skip i fuel e b0 b1 tot last =
      some (rawIter stepF a e fuel,
            (if 2 ≤ fuel then (rawRes stepF a e (fuel - 2)).obs else b0),
            (rawRes stepF a e (fuel - 1)).obs,
            tot + sumRew stepF a e fuel,
            rawRes stepF a e (fuel - 1)) := by
  intro fuel
  induction fuel with
  | zero => intro i e b0 b1 tot last h1; omega
  | succ f ih =>
    intro i e b0 b1 tot last _ hskip hno
    match f with
    | 0 =>
      have hi1 : ¬ ((i : Int) = (skip : Int) - 2) := by omega
      have hi2 : (i : Int) = (skip : Int) - 1 := by omega
      have h21 : ¬ ((2 : Nat) ≤ 0 + 1) := by omega
      rw [skipLoop_succ, if_neg hi1, if_pos hi2, if_neg h21]
      split
      · simp [rawIter, rawRes, sumRew_one]
      · rw [skipLoop_zero]
        simp [rawIter, rawRes, sumRew_one]
    | f' + 1 =>
      have hnb : (stepF e a).1.absorbing = false := by
        have := hno 0 (by omega)
        simpa [rawRes, rawIter] using this
      have hi2 : ¬ ((i : Int) = (skip : Int) - 1) := by omega
      rw [skipLoop_succ, if_neg (by simp [hnb]), if_neg hi2]
      have H := ih (i + 1) (stepF e a).2
        (if (i : Int) = (skip : Int) - 2 then (stepF e a).1.obs else b0)
        b1 (tot + (stepF e a).1.reward) (some (stepF e a).1)
        (by omega) (by omega)
        (fun m hm => by rw [rawRes_shift]; exact hno (m + 1) (by omega))
      refine H.trans ?_
      have hsum : tot + (stepF e a).1.reward + sumRew stepF a (stepF e a).2 (f' + 1)
          = tot + sumRew stepF a e (f' + 1 + 1) := by
        conv_rhs => rw [sumRew_shift]
        have hr0 : (rawRes stepF a e 0).reward = (stepF e a).1.reward := rfl
        rw [hr0]; ring
      have hslot : (if 2 ≤ f' + 1 then (rawRes stepF a (stepF e a).2 (f' + 1 - 2)).obs
            else if (i : Int) = (skip : Int) - 2 then (stepF e a).1.obs else b0)
          = (rawRes stepF a e (f' + 1 + 1 - 2)).obs := by
        match f' with
        | 0 =>
          have hcond : (i : Int) = (skip : Int) - 2 := by omega
          have h21 : ¬ ((2 : Nat) ≤ 0 + 1) := by omega
          rw [if_neg h21, if_pos hcond]; rfl
        | f'' + 1 =>
          rw [if_pos (by omega : (2 : Nat) ≤ f'' + 1 + 1), rawRes_shift]
          congr 2
      simp only [Option.some.injEq, Prod.mk.injEq]
      refine ⟨?_, ?_, ?_, ?_, ?_⟩
      · rw [rawIter_shift]
      · rw [hslot, if_pos (by omega : (2 : Nat) ≤ f' + 1 + 1)]
      · rw [rawRes_shift]
        congr 2
      · exact hsum
      · rw [rawRes_shift]
        congr 2

/-- If the first absorbing sub-step is at index `j` and `j + 2` is still
less than the remaining iteration count, the skip loop stops after
`j + 1` raw steps without touching either buffer slot. -/
theorem skipLoop_absorb_early {σ : Type} (stepF : σ → Action → StepRes × σ)
    (a : Action) (skip : Nat) :
    ∀ j fuel i e b0 b1 tot last, i + fuel = skip → j + 2 < fuel →
    (rawRes stepF a e j).absorbing = true →
    (∀ m, m < j → (rawRes stepF a e m).absorbing = false) →
    skipLoop stepF a skip i fuel e b0 b1 tot last =
      some (rawIter stepF a e (j + 1), b0, b1,
            tot + sumRew stepF a e (j + 1), rawRes stepF a e j) := by
  intro j
  induction j with
  | zero =>
    intro fuel i e b0 b1 tot last hskip hj habs _
    match fuel, hj with
    | f + 1, _ =>
      have habs' : (stepF e a).1.absorbing = true := habs
      have hi1 : ¬ ((i : Int) = (skip : Int) - 2) := by omega
      have hi2 : ¬ ((i : Int) = (skip : Int) - 1) := by omega
      rw [skipLoop_succ, if_pos habs', if_neg hi1, if_neg hi2]
      simp [rawIter, rawRes, sumRew_one]
  | succ j' ih =>
    intro fuel i e b0 b1 tot last hskip hj habs hfirst
    match fuel, hj with
    | f + 1, _ =>
      have hnb : (stepF e a).1.absorbing = false := by
        have := hfirst 0 (by omega)
        simpa [rawRes, rawIter] using this
      have hi1 : ¬ ((i : Int) = (skip : Int) - 2) := by omega
      have hi2 : ¬ ((i : Int) = (skip : Int) - 1) := by omega
      rw [skipLoop_succ, if_neg (by simp [hnb]), if_neg hi1, if_neg hi2]
      have H := ih f (i + 1) (stepF e a).2 b0 b1
        (tot + (stepF e a).1.reward) (some (stepF e a).1)
        (by omega) (by omega)
        (by rw [rawRes_shift]; exact habs)
        (fun m hm => by rw [rawRes_shift]; exact hfirst (m + 1) (by omega))
      refine H.trans ?_
      have hsum : tot + (stepF e a).1.reward + sumRew stepF a (stepF e a).2 (j' + 1)
          = tot + sumRew stepF a e (j' + 1 + 1) := by
        conv_rhs => rw [sumRew_shift]
        have hr0 : (rawRes stepF a e 0).reward = (stepF e a).1.reward := rfl
        rw [hr0]; ring
      rw [rawIter_shift, rawRes_shift, hsum]

/-- If the first absorbing sub-step is at index `j < fuel`, the skip loop
stops after `j + 1` raw steps with the reward accumulated over those
steps and that sub-step's result; the buffer slots end in some state. -/
theorem skipLoop_absorb {σ : Type} (stepF : σ → Action → StepRes × σ)
    (a : Action) (skip : Nat) :
    ∀ j fuel i e b0 b1 tot last, i + fuel = skip → j < fuel →
    (rawRes stepF a e j).absorbing = true →
    (∀ m, m < j → (rawRes stepF a e m).absorbing = false) →
    ∃ c0 c1, skipLoop stepF a skip i fuel e b0 b1 tot last =
      some (rawIter stepF a e (j + 1), c0, c1,
            tot + sumRew stepF a e (j + 1), rawRes stepF a e j) := by
  intro j
  induction j with
  | zero =>
    intro fuel i e b0 b1 tot last hskip hj habs _
    match fuel, hj with
    | f + 1, _ =>
      have habs' : (stepF e a).1.absorbing = true := habs
      refine ⟨(if (i : Int) = (skip : Int) - 2 then (stepF e a).1.obs else b0),
              (if (i : Int) = (skip : Int) - 1 then (stepF e a).1.obs else b1), ?_⟩
      rw [skipLoop_succ, if_pos habs']
      simp [rawIter, rawRes, sumRew_one]
  | succ j' ih =>
    intro fuel i e b0 b1 tot last hskip hj habs hfirst
    match fuel, hj with
    | f + 1, _ =>
      have hnb : (stepF e a).1.absorbing = false := by
        have := hfirst 0 (by omega)
        simpa [rawRes, rawIter] using this
      obtain ⟨c0, c1, hc⟩ := ih f (i + 1) (stepF e a).2
        (if (i : Int) = (skip : Int) - 2 then (stepF e a).1.obs else b0)
        (if (i : Int) = (skip : Int) - 1 then (stepF e a).1.obs else b1)
        (tot + (stepF e a).1.reward) (some (stepF e a).1)
        (by omega) (by omega)
        (by rw [rawRes_shift]; exact habs)
        (fun m hm => by rw [rawRes_shift]; exact hfirst (m + 1) (by omega))
      refine ⟨c0, c1, ?_⟩
      rw [skipLoop_succ, if_neg (by simp [hnb]), hc]
      have hsum : tot + (stepF e a).1.reward + sumRew stepF a (stepF e a).2 (j' + 1)
          = tot + sumRew stepF a e (j' + 1 + 1) := by
        conv_rhs => rw [sumRew_shift]
        have hr0 : (rawRes stepF a e 0).reward = (stepF e a).1.reward := rfl
        rw [hr0]; ring
      rw [rawIter_shift, rawRes_shift, hsum]

/-- Claim C1: for a wrapped step of the frame-skip-and-pool wrapper with
skip count `s ≥ 2`, (a) if the first absorbing sub-step is at index `j`,
the wrapper stops after `j + 1 ≤ s` raw steps, returning the sum of the
raw rewards issued and the absorbing flag; (b) if no sub-step before the
last reports absorbing, all `s` raw steps run under the same action, the
returned reward is the sum of all `s` raw rewards and the returned frame
pools (element-wise max or average, per the mode fixed at construction)
exactly the raw frames of sub-steps `s - 2` and `s - 1`. -/
theorem MaxAndSkip.step_spec {σ : Type} (stepF : σ → Action → StepRes × σ)
    (self : MaxAndSkip σ) (a : Action) (hskip : 2 ≤ self.skip) :
    ((∀ j, j < self.skip → (rawRes stepF a self.env j).absorbing = true →
      (∀ m, m < j → (rawRes stepF a self.env m).absorbing = false) →
      ∃ fr st, MaxAndSkip.step stepF self a =
        some (fr, sumRew stepF a self.env (j + 1), true,
              (rawRes stepF a self.env j).lives, st) ∧
        st.env = rawIter stepF a self.env (j + 1)) ∧
    ((∀ m, m + 1 < self.skip → (rawRes stepF a self.env m).absorbing = false) →
      MaxAndSkip.step stepF self a =
        some (poolFrames self.max_pooling
                (rawRes stepF a self.env (self.skip - 2)).obs
                (rawRes stepF a self.env (self.skip - 1)).obs,
              sumRew stepF a self.env self.skip,
              (rawRes stepF a self.env (self.skip - 1)).absorbing,
              (rawRes stepF a self.env (self.skip - 1)).lives,
              { self with env := rawIter stepF a self.env self.skip,
                          obs_buffer0 := (rawRes stepF a self.env (self.skip - 2)).obs,
                          obs_buffer1 := (rawRes stepF a self.env (self.skip - 1)).obs }))) := by
  constructor
  · intro j hj habs hfirst
    obtain ⟨c0, c1, hc⟩ := skipLoop_absorb stepF a self.skip j self.skip 0
      self.env self.obs_buffer0 self.obs_buffer1 0 none (by omega) hj habs hfirst
    refine ⟨poolFrames self.max_pooling c0 c1,
            { self with env := rawIter stepF a self.env (j + 1),
                        obs_buffer0 := c0, obs_buffer1 := c1 }, ?_, rfl⟩
    rw [MaxAndSkip.step, hc, Option.map_some']
    rw [habs, zero_add]
  · intro hno
    rw [MaxAndSkip.step,
      skipLoop_no_absorb stepF a self.skip self.skip 0 self.env
        self.obs_buffer0 self.obs_buffer1 0 none (by omega) (by omega) hno,
      Option.map_some', if_pos hskip, zero_add]

/-- Claim C10: if the inner environment's first absorbing sub-step comes
at an index strictly smaller than `skip - 2`, neither pooling-buffer slot
is written during the wrapped step, so the returned frame is pooled from
the buffer contents left by an earlier call (or the all-zero initial
buffer), not from this call's raw frames. -/
theorem MaxAndSkip.step_early_absorb {σ : Type}
    (stepF : σ → Action → StepRes × σ) (self : MaxAndSkip σ) (a : Action)
    (j : Nat) (hj : j + 2 < self.skip)
    (habs : (rawRes stepF a self.env j).absorbing = true)
    (hfirst : ∀ m, m < j → (rawRes stepF a self.env m).absorbing = false) :
    MaxAndSkip.step stepF self a =
      some (poolFrames self.max_pooling self.obs_buffer0 self.obs_buffer1,
            sumRew stepF a self.env (j + 1), true,
            (rawRes stepF a self.env j).lives,
            { self with env := rawIter stepF a self.env (j + 1) }) := by
  rw [MaxAndSkip.step,
    skipLoop_absorb_early stepF a self.skip j self.skip 0 self.env
      self.obs_buffer0 self.obs_buffer1 0 none (by omega) hj habs hfirst,
    Option.map_some', habs, zero_add]

theorem MaxAndSkip.step_spec_witness :
    2 ≤ msC1.skip ∧
    sumRew stepFC1 0 msC1.env msC1.skip = 3 ∧
    MaxAndSkip.step stepFC1 msC1 0 =
      some (poolFrames msC1.max_pooling
              (rawRes stepFC1 0 msC1.env (msC1.skip - 2)).obs
              (rawRes stepFC1 0 msC1.env (msC1.skip - 1)).obs,
            sumRew stepFC1 0 msC1.env msC1.skip,
            (rawRes stepFC1 0 msC1.env (msC1.skip - 1)).absorbing,
            (rawRes stepFC1 0 msC1.env (msC1.skip - 1)).lives,
            { msC1 with env := rawIter stepFC1 0 msC1.env msC1.skip,
                        obs_buffer0 := (rawRes stepFC1 0 msC1.env (msC1.skip - 2)).obs,
                        obs_buffer1 := (rawRes stepFC1 0 msC1.env (msC1.skip - 1)).obs }) :=
  ⟨by decide,
   by simp [sumRew, List.range_succ, rawRes, rawIter, stepFC1, msC1]; norm_num,
   (MaxAndSkip.step_spec stepFC1 msC1 0 (by decide)).2 (fun m _ => rfl)⟩

theorem MaxAndSkip.step_early_absorb_witness :
    0 + 2 < msC10.skip ∧
    MaxAndSkip.step stepFC10 msC10 0 =
      some (poolFrames msC10.max_pooling msC10.obs_buffer0 msC10.obs_buffer1,
            sumRew stepFC10 0 msC10.env (0 + 1), true,
            (rawRes stepFC10 0 msC10.env 0).lives,
            { msC10 with env := rawIter stepFC10 0 msC10.env (0 + 1) }) :=
  ⟨by decide,
   MaxAndSkip.step_early_absorb stepFC10 msC10 0 0 (by decide) rfl
     (fun m hm => (Nat.not_lt_zero m hm).elim)⟩

theorem noopLoop_actions {σ : Type} (stepRaw : σ → Action → StepRes × σ) :
    ∀ (n : Nat) (e : σ), (noopLoop stepRaw n e).2 = List.replicate n 0 := by
  intro n
  induction n with
  | zero => intro e; rfl
  | succ n ih => intro e; simp [noopLoop, ih, List.replicate_succ]

theorem dequeAppend_length {α : Type} (h : Nat) (q : List α) (x : α)
    (hq : q.length = h) : (dequeAppend h q x).length = h := by
  simp only [dequeAppend, List.length_append, List.length_cons,
    List.length_nil, hq]
  rw [if_pos (by omega)]
  simp [hq]

theorem dequeAppend_full {α : Type} (h : Nat) (q : List α) (x : α)
    (hq : q.length = h) : dequeAppend h q x = (q ++ [x]).drop 1 := by
  simp only [dequeAppend, List.length_append, List.length_cons,
    List.length_nil, hq]
  rw [if_pos (by omega)]
  congr 1
  omega

theorem foldl_dequeAppend {α : Type} (h : Nat) :
    ∀ (xs : List α) (q : List α), q.length = h →
    xs.foldl (dequeAppend h) q = (q ++ xs).drop xs.length := by
  intro xs
  induction xs with
  | nil => intro q hq; simp
  | cons x xs ih =>
    intro q hq
    rw [List.foldl_cons, ih (dequeAppend h q x) (dequeAppend_length h q x hq),
      dequeAppend_full h q x hq,
      ← List.drop_append_of_le_length (by simp : (1 : Nat) ≤ (q ++ [x]).length),
      List.drop_drop]
    simp [List.append_assoc, Nat.add_comm]

/-- Claim C2: when the wrapped step reports a lives count different from
the tracked one, (a) with `ends_at_life = True` the returned absorbing
flag is true regardless of the simulator's flag; (b) with
`ends_at_life = False` the returned absorbing flag is exactly the
simulator's flag, force-fire is re-armed to `action 1 == FIRE`, and no
full reset is scheduled beyond what the simulator's own absorbing flag
dictates (`_real_reset` records precisely that flag). -/
theorem Atari.step_life_loss {σ : Type} (cfg : AtariCfg σ) (self : Atari σ)
    (a : Action)
    (hlife : (cfg.stepW (primedEnv cfg self) a).1.lives ≠ self.lives) :
    (cfg.episode_ends_at_life = true →
      (Atari.step cfg self a).1.absorbing = true) ∧
    (cfg.episode_ends_at_life = false →
      (Atari.step cfg self a).1.absorbing
          = (cfg.stepW (primedEnv cfg self) a).1.absorbing ∧
      (Atari.step cfg self a).2.force_fire = cfg.fire_available ∧
      (Atari.step cfg self a).2.real_reset
          = (cfg.stepW (primedEnv cfg self) a).1.absorbing) := by
  simp only [primedEnv] at hlife
  constructor
  · intro hend
    simp only [Atari.step, if_neg hlife, hend, if_pos trivial, if_true]
  · intro hend
    simp only [primedEnv]
    simp only [Atari.step, if_neg hlife, hend]
    simp

/-- Claim C3: `reset` performs the full simulator reset — refilling the
history deque with `history_length` copies of the preprocessed post-reset
frame and restoring the lives counter — exactly when `_real_reset` holds;
otherwise it leaves simulator state, deque and lives untouched (soft
reset).  `_real_reset` is exactly the underlying simulator's absorbing
flag from the last step, and is true on a freshly constructed adapter. -/
theorem Atari.reset_paths {σ : Type} (cfg : AtariCfg σ) (self : Atari σ)
    (g : Nat) (e0 : σ) (a : Action) :
    (self.real_reset = true →
      (Atari.reset cfg self g).2.state
          = List.replicate cfg.history_length
              (cfg.preprocess_frame (cfg.resetW self.env).1) ∧
      (Atari.reset cfg self g).2.env = (cfg.resetW self.env).2 ∧
      (Atari.reset cfg self g).2.lives = cfg.max_lives) ∧
    (self.real_reset = false →
      (Atari.reset cfg self g).2.state = self.state ∧
      (Atari.reset cfg self g).2.env = self.env ∧
      (Atari.reset cfg self g).2.lives = self.lives) ∧
    (Atari.step cfg self a).2.real_reset
        = (cfg.stepW (primedEnv cfg self) a).1.absorbing ∧
    (Atari.initState cfg e0).real_reset = true := by
  refine ⟨?_, ?_, rfl, rfl⟩
  · intro hr
    simp [Atari.reset, hr]
  · intro hr
    simp [Atari.reset, hr]

/-- Claim C4: the drawn no-op count never exceeds `max_no_op_actions`
(every value in `[0, max_no_op_actions]` is drawn for some generator
residue), a zero counter issues no priming no-ops, and a positive counter
issues exactly that many raw no-op (action 0) steps, leaving the counter
at zero. -/
theorem Atari.noop_priming_spec {σ : Type} (cfg : AtariCfg σ)
    (self : Atari σ) (g : Nat) (a : Action) (k : Nat)
    (hk : k ≤ cfg.max_no_op_actions) :
    (Atari.reset cfg self g).2.current_no_op ≤ cfg.max_no_op_actions ∧
    npRandint k (cfg.max_no_op_actions + 1) = k ∧
    (self.current_no_op = 0 → (Atari.step cfg self a).1.noop_priming = []) ∧
    (Atari.step cfg self a).1.noop_priming
        = List.replicate self.current_no_op 0 ∧
    (Atari.step cfg self a).2.current_no_op = 0 := by
  refine ⟨?_, Nat.mod_eq_of_lt (by omega), ?_, ?_, rfl⟩
  · have : npRandint g (cfg.max_no_op_actions + 1) < cfg.max_no_op_actions + 1 :=
      Nat.mod_lt _ (Nat.succ_pos _)
    simpa [Atari.reset, npRandint] using Nat.lt_succ_iff.mp this
  · intro h0
    simp [Atari.step, noopLoop_actions, h0]
  · simp [Atari.step, noopLoop_actions]

/-- Claim C5: after a full reset the history deque has length exactly
`history_length` with every slot equal to the single preprocessed
post-reset frame, and reset preserves the length invariant in general. -/
theorem Atari.reset_coldstart {σ : Type} (cfg : AtariCfg σ) (self : Atari σ)
    (g : Nat) :
    (self.real_reset = true →
      (Atari.reset cfg self g).2.state.length = cfg.history_length ∧
      ∀ f ∈ (Atari.reset cfg self g).2.state,
        f = cfg.preprocess_frame (cfg.resetW self.env).1) ∧
    (self.state.length = cfg.history_length →
      (Atari.reset cfg self g).2.state.length = cfg.history_length) := by
  constructor
  · intro hr
    refine ⟨by simp [Atari.reset, hr], ?_⟩
    intro f hf
    simp only [Atari.reset, hr, if_pos trivial, if_true] at hf
    exact List.eq_of_mem_replicate hf
  · intro hlen
    cases hr : self.real_reset
    · simpa [Atari.reset, hr] using hlen
    · simp [Atari.reset, hr]

theorem drop_append_length_add {α : Type} :
    ∀ (q xs : List α) (k : Nat), (q ++ xs).drop (q.length + k) = xs.drop k := by
  intro q
  induction q with
  | nil => intro xs k; simp
  | cons a q ih =>
    intro xs k
    simp only [List.cons_append, List.length_cons]
    rw [show q.length + 1 + k = (q.length + k) + 1 from by omega,
      List.drop_succ_cons, ih]

theorem Atari.run_spec {σ : Type} (cfg : AtariCfg σ) :
    ∀ (acts : List Action) (st : Atari σ),
    (Atari.run cfg st acts).2.length = acts.length ∧
    (Atari.run cfg st acts).1.state =
      ((Atari.run cfg st acts).2).foldl (dequeAppend cfg.history_length)
        st.state := by
  intro acts
  induction acts with
  | nil => intro st; exact ⟨rfl, rfl⟩
  | cons a as ih =>
    intro st
    obtain ⟨h1, h2⟩ := ih (Atari.step cfg st a).2
    refine ⟨by simp [Atari.run, h1], ?_⟩
    simp only [Atari.run, List.foldl_cons]
    rw [h2]
    rfl

/-- Claim C6: after a full reset followed by `history_length + k` step
calls, the history deque holds exactly the last `history_length`
preprocessed frames, in arrival order, the oldest having been evicted
first. -/
theorem Atari.fifo_buffer {σ : Type} (cfg : AtariCfg σ) (self : Atari σ)
    (g k : Nat) (acts : List Action) (hreset : self.real_reset = true)
    (hlen : acts.length = cfg.history_length + k) :
    (Atari.run cfg (Atari.reset cfg self g).2 acts).2.length = acts.length ∧
    (Atari.run cfg (Atari.reset cfg self g).2 acts).1.state =
      (Atari.run cfg (Atari.reset cfg self g).2 acts).2.drop k := by
  obtain ⟨h1, h2⟩ := Atari.run_spec cfg acts (Atari.reset cfg self g).2
  refine ⟨h1, ?_⟩
  have hq : (Atari.reset cfg self g).2.state.length = cfg.history_length := by
    simp [Atari.reset, hreset]
  rw [h2, foldl_dequeAppend cfg.history_length _ _ hq, h1, hlen, ← hq,
    drop_append_length_add]

theorem Atari.step_life_loss_witness :
    (cfgT.stepW (primedEnv cfgT stT) 0).1.lives ≠ stT.lives ∧
    (cfgT.stepW (primedEnv cfgT stT) 0).1.absorbing = false ∧
    (Atari.step cfgT stT 0).1.absorbing = true ∧
    ((Atari.step cfgF stT 0).1.absorbing
        = (cfgF.stepW (primedEnv cfgF stT) 0).1.absorbing ∧
     (Atari.step cfgF stT 0).2.force_fire = cfgF.fire_available ∧
     (Atari.step cfgF stT 0).2.real_reset
        = (cfgF.stepW (primedEnv cfgF stT) 0).1.absorbing) :=
  ⟨by decide, by decide,
   (Atari.step_life_loss cfgT stT 0 (by decide)).1 rfl,
   (Atari.step_life_loss cfgF stT 0 (by decide)).2 rfl⟩

theorem Atari.reset_paths_witness :
    stT.real_reset = true ∧
    ((Atari.reset cfgT stT 5).2.state
        = List.replicate cfgT.history_length
            (cfgT.preprocess_frame (cfgT.resetW stT.env).1) ∧
     (Atari.reset cfgT stT 5).2.env = (cfgT.resetW stT.env).2 ∧
     (Atari.reset cfgT stT 5).2.lives = cfgT.max_lives) ∧
    stSoft.real_reset = false ∧
    ((Atari.reset cfgT stSoft 5).2.state = stSoft.state ∧
     (Atari.reset cfgT stSoft 5).2.env = stSoft.env ∧
     (Atari.reset cfgT stSoft 5).2.lives = stSoft.lives) :=
  ⟨rfl, (Atari.reset_paths cfgT stT 5 0 0).1 rfl, rfl,
   (Atari.reset_paths cfgT stSoft 5 0 0).2.1 rfl⟩

theorem Atari.noop_priming_spec_witness :
    7 ≤ cfgT.max_no_op_actions ∧
    ((Atari.reset cfgT stT 5).2.current_no_op ≤ cfgT.max_no_op_actions ∧
     npRandint 7 (cfgT.max_no_op_actions + 1) = 7 ∧
     (stT.current_no_op = 0 → (Atari.step cfgT stT 0).1.noop_priming = []) ∧
     (Atari.step cfgT stT 0).1.noop_priming
        = List.replicate stT.current_no_op 0 ∧
     (Atari.step cfgT stT 0).2.current_no_op = 0) :=
  ⟨by decide, Atari.noop_priming_spec cfgT stT 5 0 7 (by decide)⟩

theorem Atari.reset_coldstart_witness :
    stT.real_reset = true ∧
    ((Atari.reset cfgT stT 5).2.state.length = cfgT.history_length ∧
     ∀ f ∈ (Atari.reset cfgT stT 5).2.state,
       f = cfgT.preprocess_frame (cfgT.resetW stT.env).1) :=
  ⟨rfl, (Atari.reset_coldstart cfgT stT 5).1 rfl⟩

theorem Atari.fifo_buffer_witness :
    stT.real_reset = true ∧
    ([0, 0, 0] : List Action).length = cfgH2.history_length + 1 ∧
    ((Atari.run cfgH2 (Atari.reset cfgH2 stT 5).2 [0, 0, 0]).2.length
        = ([0, 0, 0] : List Action).length ∧
     (Atari.run cfgH2 (Atari.reset cfgH2 stT 5).2 [0, 0, 0]).1.state =
       (Atari.run cfgH2 (Atari.reset cfgH2 stT 5).2 [0, 0, 0]).2.drop 1) :=
  ⟨rfl, by decide, Atari.fifo_buffer cfgH2 stT 5 1 [0, 0, 0] rfl (by decide)⟩

/-- Claim C7: the conversion maps `Discrete(n)` to `Discrete(n)` and
`Box` to `Box` with identical low/high/shape, and every other external
space kind makes both the conversion and the adapter construction fail
with a synchronous error. -/
theorem Gym.convertGymSpace_spec (s act : GymSpace)
    (hnd : ∀ n, s ≠ GymSpace.discrete n)
    (hnb : ∀ low high shape, s ≠ GymSpace.box low high shape) :
    (∀ n, Gym.convertGymSpace (GymSpace.discrete n)
        = .ok (MSpace.discrete n)) ∧
    (∀ low high shape, Gym.convertGymSpace (GymSpace.box low high shape)
        = .ok (MSpace.box low high shape)) ∧
    (∃ err, Gym.convertGymSpace s = .error err) ∧
    (∃ err, Gym.initSpaces s act = .error err) := by
  refine ⟨fun n => rfl, fun low high shape => rfl, ?_, ?_⟩
  · cases s with
    | discrete n => exact absurd rfl (hnd n)
    | box low high shape => exact absurd rfl (hnb low high shape)
    | multiDiscrete nvec => exact ⟨.valueError, rfl⟩
    | tuple spaces => exact ⟨.valueError, rfl⟩
    | dict spaces => exact ⟨.valueError, rfl⟩
  · cases s with
    | discrete n => exact absurd rfl (hnd n)
    | box low high shape => exact absurd rfl (hnb low high shape)
    | multiDiscrete nvec => exact ⟨.assertionError, rfl⟩
    | tuple spaces =>
      cases act with
      | multiDiscrete nvec => exact ⟨.assertionError, rfl⟩
      | discrete n => exact ⟨.valueError, rfl⟩
      | box low high shape => exact ⟨.valueError, rfl⟩
      | tuple spaces2 => exact ⟨.valueError, rfl⟩
      | dict spaces2 => exact ⟨.valueError, rfl⟩
    | dict spaces =>
      cases act with
      | multiDiscrete nvec => exact ⟨.assertionError, rfl⟩
      | discrete n => exact ⟨.valueError, rfl⟩
      | box low high shape => exact ⟨.valueError, rfl⟩
      | tuple spaces2 => exact ⟨.valueError, rfl⟩
      | dict spaces2 => exact ⟨.valueError, rfl⟩

theorem Gym.convertGymSpace_spec_witness :
    (∀ n, GymSpace.tuple [] ≠ GymSpace.discrete n) ∧
    (∀ low high shape, GymSpace.tuple [] ≠ GymSpace.box low high shape) ∧
    ((∀ n, Gym.convertGymSpace (GymSpace.discrete n)
        = .ok (MSpace.discrete n)) ∧
     (∀ low high shape, Gym.convertGymSpace (GymSpace.box low high shape)
        = .ok (MSpace.box low high shape)) ∧
     (∃ err, Gym.convertGymSpace (GymSpace.tuple []) = .error err) ∧
     (∃ err, Gym.initSpaces (GymSpace.tuple []) (GymSpace.discrete 3)
        = .error err)) :=
  And.intro (fun _ h => nomatch h) (And.intro
    (fun _ _ _ h => nomatch h)
    (Gym.convertGymSpace_spec (GymSpace.tuple []) (GymSpace.discrete 3)
      (fun _ h => nomatch h) (fun _ _ _ h => nomatch h)))

/-- Claim C8: `Gym.reset` with no requested state delegates to the
simulator's reset and returns its raw observation coerced to at least a
1-D vector; with a requested state it resets the simulator, overwrites
the simulator's `state` attribute with the given value and returns that
same value coerced to a vector. -/
theorem Gym.reset_spec {ι : Type}
    (simReset : GymEnvState ι → NpVal × GymEnvState ι)
    (e : GymEnvState ι) :
    (Gym.reset simReset e none
        = (atleast_1d (simReset e).1, (simReset e).2)) ∧
    (∀ s, Gym.reset simReset e (some s)
        = (atleast_1d s, { (simReset e).2 with state := s })) ∧
    (∀ s, (Gym.reset simReset e (some s)).2.state = s) ∧
    (∀ x, atleast_1d (NpVal.scalar x) = [x]) ∧
    (∀ xs, atleast_1d (NpVal.arr xs) = xs) :=
  ⟨rfl, fun _ => rfl, fun _ => rfl, fun _ => rfl, fun _ => rfl⟩

/-- Claim C9: for a game name containing `NoFrameskip`, the constructor
wraps the simulator in the frame-skip-and-pool wrapper whose skip count
is the `history_length` parameter itself — there is no independent
frame-skip setting. -/
theorem Atari.selectEnv_noFrameskip {σ : Type} (name : String)
    (ariInstalled : Bool) (ariKeys : List String) (mkRaw : String → σ)
    (shapeSize history_length : Nat) (max_pooling : Bool)
    (h : strContains name "NoFrameskip" = true) :
    Atari.selectEnv name ariInstalled ariKeys mkRaw shapeSize
        history_length max_pooling
      = .maxAndSkip (MaxAndSkip.init (mkRaw name) shapeSize history_length
          max_pooling) ∧
    (MaxAndSkip.init (mkRaw name) shapeSize history_length
        max_pooling).skip = history_length := by
  constructor
  · simp [Atari.selectEnv, h]
  · rfl

theorem Atari.selectEnv_noFrameskip_witness :
    strContains "BreakoutNoFrameskip-v4" "NoFrameskip" = true ∧
    (Atari.selectEnv "BreakoutNoFrameskip-v4" false [] (fun _ => (0 : Nat))
        2 4 true
      = .maxAndSkip (MaxAndSkip.init 0 2 4 true) ∧
     (MaxAndSkip.init (0 : Nat) 2 4 true).skip = 4) :=
  ⟨by decide,
   Atari.selectEnv_noFrameskip "BreakoutNoFrameskip-v4" false []
     (fun _ => (0 : Nat)) 2 4 true (by decide)⟩

end MushroomRL
